import Mathlib

/-!
Verification of the zk-hashing core (prime field, MiMC, Merkle commitment,
Fiat-Shamir sampler, prover/verifier) against its specification.

The embedding follows the JavaScript sources.  Conventions:

* JS `BigInt` values appearing in the protocol are non-negative and are
  modelled as `Nat`; the one signed constructor (`FieldElement`) is modelled
  over `Int` as in the source.
* Canonical decimal strings (leaves, internal Merkle nodes, roots, path
  entries, `mimc_output` in JSON) are modelled by their numeric value: the
  decimal rendering of a natural number is injective, so string equality on
  canonical encodings coincides with `Nat` equality.  Where a genuinely
  textual comparison occurs (the native-mode `outputHash !==
  public_inputs.mimc_output` check, which compares an artifact string with a
  decimal string) the decimal rendering is made explicit via `decChars`.
* The empty-sibling token `""` of the Merkle tree is modelled as `none`
  (an `Option Nat` is a node string that is either empty or a canonical
  decimal).
* JS strings fed to `stringToField` are modelled as their list of UTF-16
  code units (`List Nat`, one entry per `charCodeAt`).
* The two unbounded `while` loops of the source (the Fiat-Shamir sampler and
  the binary-exponentiation loop) are given an explicit fuel parameter so
  that the definitions stay executable; the sampler returns `none` when the
  fuel runs out, which models a non-terminating run of the source loop.
-/

set_option maxRecDepth 6000

set_option maxHeartbeats 1000000

/-- The field modulus p = 3 * 2^30 + 1 (src/unnamed/part_001, stark-math). -/
def FIELD_MODULUS : Nat := 3221225473

/-- `MIMC_ROUNDS = 64` (src/unnamed/part_001, stark-math). -/
def MIMC_ROUNDS : Nat := 64

/-- Round constants `c_i = i * 123456789` for `i` in `[0, 64)`
(src/unnamed/part_001, stark-math). -/
def MIMC_CONSTANTS : List Nat := (List.range MIMC_ROUNDS).map (fun i => i * 123456789)

namespace FieldElement

/-- The `FieldElement` constructor: `((val % p) + p) % p` over signed
integers (stark-math).  Returns the canonical representative in `[0, p)`. -/
def mkVal (x : Int) : Nat := (((x % (FIELD_MODULUS : Int)) + FIELD_MODULUS) % FIELD_MODULUS).toNat

/-- The binary-exponentiation loop of `FieldElement.pow`:
`while (p > 0) { if (p & 1) res = res*base % m; base = base*base % m; p >>= 1 }`.
`fuel` bounds the number of iterations; 64 iterations cover every exponent
below `2^64`, far beyond the exponents the code uses. -/
def powAux : Nat → Nat → Nat → Nat → Nat
  | 0, res, _, _ => res
  | fuel + 1, res, base, e =>
    if e = 0 then res
    else powAux fuel (if e % 2 = 1 then res * base % FIELD_MODULUS else res)
      (base * base % FIELD_MODULUS) (e / 2)

/-- `FieldElement.pow` (stark-math): modular exponentiation of a canonical
value `x` to exponent `e`. -/
def pow (x e : Nat) : Nat := powAux 64 1 x e

/-- `FieldElement.inv` (stark-math): `x^(p-2)` by Fermat. -/
def inv (x : Nat) : Nat := pow x (FIELD_MODULUS - 2)

end FieldElement

/-- One MiMC round `t = (curr + k + c) % p; t3 = (t*t % p) * t % p`.
This three-line body appears verbatim in `mimcHash`, in both prover trace
loops (src/prover.js) and in both verifier transition checks
(src/unnamed/part_001); it is shared here. -/
def mimcStep (k curr c : Nat) : Nat :=
  let t := (curr + k + c) % FIELD_MODULUS
  ((t * t) % FIELD_MODULUS) * t % FIELD_MODULUS

/-- `mimcHash(x, k)` (src/unnamed/part_001, stark-math): 64 rounds of
`mimcStep` followed by the closing key addition `(curr + key) % p`. -/
def mimcHash (x k : Nat) : Nat :=
  (MIMC_CONSTANTS.foldl (fun curr c => mimcStep k curr c) x + k) % FIELD_MODULUS

namespace ZKProver

/-- `ZKProver.stringToField` (src/prover.js): base-256 big-endian fold of the
character codes, passed through the `FieldElement` constructor.  The result
is the `.val` of the returned `FieldElement`. -/
def stringToField (s : List Nat) : Nat :=
  FieldElement.mkVal (s.foldl (fun (v : Int) (c : Nat) => v * 256 + (c : Int)) 0)

end ZKProver

namespace ZKVerifier

/-- `ZKVerifier.stringToField` (src/unnamed/part_001): the verifier's own
re-implementation, a base-256 big-endian fold reduced by
`((val % m) + m) % m` with the hard-coded modulus. -/
def stringToField (s : List Nat) : Nat :=
  ((s.foldl (fun v c => v * 256 + c) 0) % FIELD_MODULUS + FIELD_MODULUS) % FIELD_MODULUS

end ZKVerifier

/-- Decimal digits of `n`, least significant first (`fuel`-bounded division
loop; `fuel = n` always suffices). -/
def decDigitsAux : Nat → Nat → List Nat
  | 0, _ => []
  | _, 0 => []
  | fuel + 1, n => (n % 10) :: decDigitsAux fuel (n / 10)

/-- Character codes of the canonical decimal rendering of `n`
(JS `BigInt.prototype.toString`).  Used where the source compares an
arbitrary string with a decimal string. -/
def decChars (n : Nat) : List Nat :=
  if n = 0 then [48] else ((decDigitsAux n n).map (fun d => d + 48)).reverse

/-- `MerkleTree.hashPair` (src/unnamed/part_001 lines 282-303, the
decimal-everywhere stark-math bundled with the verifier; the sibling file
src/stark-math.js holds an earlier draft that emitted hex, superseded per
the spec).  Arguments are node strings: `none` is the empty-sibling token
`""`, `some v` a canonical decimal.  `toBI` parses `""` (after the
`|| "0"` guard) and `"0"` alike to 0, and a canonical decimal to its value;
the result is emitted as a canonical decimal string. -/
def hashPair (a b : Option Nat) : Nat :=
  mimcHash ((a.getD 0 + 2 * b.getD 0) % FIELD_MODULUS) 0

/-- One layer-combining pass of `MerkleTree.build`: adjacent nodes are
paired left-to-right, an odd trailing node gets the empty-sibling token
`""` as its right sibling. -/
def pairUp : List Nat → List Nat
  | [] => []
  | [a] => [hashPair (some a) none]
  | a :: b :: rest => hashPair (some a) (some b) :: pairUp rest

/-- The `while (currentLayer.length > 1)` loop of `MerkleTree.build`,
collecting all layers starting with the leaves.  `fuel` bounds the number
of passes; `fuel = leaves.length` always suffices since each pass at least
halves the layer. -/
def buildLayersAux : Nat → List Nat → List (List Nat)
  | 0, l => [l]
  | fuel + 1, l => if l.length ≤ 1 then [l] else l :: buildLayersAux fuel (pairUp l)

/-- All layers of the Merkle tree over the given leaves (`this.layers`). -/
def buildLayers (l : List Nat) : List (List Nat) := buildLayersAux l.length l

/-- `this.root = currentLayer[0]`: head of the last layer. -/
def rootOfLayers (ls : List (List Nat)) : Nat := (ls.getLastD []).headD 0

/-- `MerkleTree.getRoot()` for the tree over the given leaves. -/
def merkleRoot (l : List Nat) : Nat := rootOfLayers (buildLayers l)

/-- `MerkleTree.getPath(index)`: walks all layers but the last; at each
layer pushes the sibling `layer[i ^ 1]` (`i+1` when even, `i-1` when odd),
or the empty token when out of range, then halves the index. -/
def getPathAux : List (List Nat) → Nat → List (Option Nat)
  | layer :: nxt :: rest, i =>
      (layer.get? (if i % 2 = 0 then i + 1 else i - 1)) :: getPathAux (nxt :: rest) (i / 2)
  | _, _ => []

/-- `MerkleTree.getPath` on prebuilt layers. -/
def getPath (layers : List (List Nat)) (i : Nat) : List (Option Nat) := getPathAux layers i

/-- The folding loop of `MerkleTree.verify`: combine with the sibling on the
side selected by the parity of the running index, then halve the index. -/
def merkleFold : Nat → Nat → List (Option Nat) → Nat
  | cur, _, [] => cur
  | cur, i, s :: rest =>
      merkleFold (if i % 2 = 0 then hashPair (some cur) s else hashPair s (some cur)) (i / 2) rest

/-- `MerkleTree.verify(root, index, value, path)`: fold the path from the
leaf and compare (string-)equal with the root. -/
def merkleVerify (root index value : Nat) (path : List (Option Nat)) : Bool :=
  merkleFold value index path == root

/-- The Fiat-Shamir `while (indices.size < numQueries)` loop
(src/unnamed/part_001 lines 228-255): hash the seed keyed by the counter,
reduce modulo the domain, insert if new (a JS `Set` keeps insertion order
and ignores duplicates).  The source loop is uncapped; `fuel` bounds the
iterations in the embedding and `none` models a run that never exits. -/
def fsLoop (seed n d : Nat) : Nat → List Nat → Nat → Option (List Nat)
  | 0, acc, _ => if acc.length < n then none else some acc
  | fuel + 1, acc, counter =>
    if acc.length < n then
      let randVal := mimcHash seed counter
      let idx := randVal % d
      let acc' := if idx < d then (if idx ∈ acc then acc else acc ++ [idx]) else acc
      fsLoop seed n d fuel acc' (counter + 1)
    else some acc

/-- `generateFiatShamirQueries(traceRoot, numQueries, domainSize)`
(src/unnamed/part_001): run the sampling loop from an empty set and counter
0, then sort ascending.  The seed is the decimal root parsed back to its
numeric value. -/
def generateFiatShamirQueries (traceRoot n d fuel : Nat) : Option (List Nat) :=
  (fsLoop traceRoot n d fuel [] 0).map (List.insertionSort (· ≤ ·))

/-- A `trace_queries` entry (§3 TraceQuery): `next_value`/`next_path` are
`null` (`none`) on the boundary query. -/
structure TraceQuery where
  index : Nat
  value : Nat
  path : List (Option Nat)
  next_value : Option Nat
  next_path : Option (List (Option Nat))
deriving DecidableEq, Repr

/-- A proof object as consumed by `ZKVerifier.verify`.  JS proof objects are
dynamic records; the two proof types populate different `public_inputs`
fields, all of which are present here (a branch simply never reads the
fields of the other type, mirroring dynamic field access). -/
structure ProofObj where
  proof_type : String
  nonce : List Nat
  public_output : Nat
  trace_root : Nat
  algorithm : String
  outputHash : List Nat
  mimc_output : Nat
  trace_queries : List TraceQuery
deriving DecidableEq, Repr

/-- Result record `{success, message/error}` of `ZKVerifier.verify`. -/
structure VerifyResult where
  success : Bool
  message : String
deriving DecidableEq, Repr

/-- The prover trace loop (src/prover.js lines 119-140 and 210-221):
`trace.push(curr)` then 64 rounds of `mimcStep`, pushing after each round.
No closing key addition. -/
def buildTraceAux (k : Nat) : Nat → List Nat → List Nat
  | curr, [] => [curr]
  | curr, c :: cs => curr :: buildTraceAux k (mimcStep k curr c) cs

/-- The full execution trace `(t_0, ..., t_64)` for input `x` and key `k`. -/
def buildTrace (x k : Nat) : List Nat := buildTraceAux k x MIMC_CONSTANTS

namespace ZKProver

/-- `ZKProver.generateKnowledgeProof(secretHash, nonce)`
(src/prover.js lines 197-268): trace keyed by the nonce, Merkle commitment,
5 Fiat-Shamir queries over domain 64 each carrying `(value, path,
next_value, next_path)`, plus the boundary query at index 64 with `null`
next-fields.  Fields of the other proof type are left at their JSON-absent
defaults. -/
def generateKnowledgeProof (secretHash nonce : List Nat) (fuel : Nat) : Option ProofObj :=
  let secretVal := stringToField secretHash
  let nonceVal := stringToField nonce
  let trace := buildTrace secretVal nonceVal
  let layers := buildLayers trace
  let traceRoot := merkleRoot trace
  match generateFiatShamirQueries traceRoot 5 MIMC_ROUNDS fuel with
  | none => none
  | some indices =>
      let qs := indices.map (fun idx =>
        TraceQuery.mk idx (trace.getD idx 0) (getPath layers idx)
          (some (trace.getD (idx + 1) 0)) (some (getPath layers (idx + 1))))
      let boundary : TraceQuery :=
        TraceQuery.mk MIMC_ROUNDS (trace.getD MIMC_ROUNDS 0) (getPath layers MIMC_ROUNDS) none none
      some (ProofObj.mk "zk-stark-knowledge-proof" nonce (trace.getD MIMC_ROUNDS 0) traceRoot
        "" [] 0 (qs ++ [boundary]))

/-- `ZKProver.generateProof(password, algorithm, params)` specialized to
`algorithm = 'mimc-stark'` (src/prover.js lines 44-191): `mimcKey = 0`, the
trace starts at `stringToField(password)`, and after the trace is built the
claimed `outputHash` is set to the decimal rendering of the trace output.
The bcrypt/argon2id branches call external KDF libraries (out-of-scope
collaborators) and are not modelled. -/
def generateProofNative (password : List Nat) (fuel : Nat) : Option ProofObj :=
  let inputVal := stringToField password
  let trace := buildTrace inputVal 0
  let outputVal := trace.getD MIMC_ROUNDS 0
  let layers := buildLayers trace
  let traceRoot := merkleRoot trace
  match generateFiatShamirQueries traceRoot 5 MIMC_ROUNDS fuel with
  | none => none
  | some indices =>
      let qs := indices.map (fun idx =>
        TraceQuery.mk idx (trace.getD idx 0) (getPath layers idx)
          (some (trace.getD (idx + 1) 0)) (some (getPath layers (idx + 1))))
      let boundary : TraceQuery :=
        TraceQuery.mk MIMC_ROUNDS (trace.getD MIMC_ROUNDS 0) (getPath layers MIMC_ROUNDS) none none
      some (ProofObj.mk "zk-stark-mimc-real" [] 0 traceRoot
        "mimc-stark" (decChars outputVal) outputVal (qs ++ [boundary]))

end ZKProver

namespace ZKVerifier

/-- Per-query loop of the knowledge branch of `ZKVerifier.verify`
(src/unnamed/part_001 lines 42-71): Merkle check, boundary check at index
64, else transition check against `next_value`.  A `null` `next_value` on a
non-boundary query makes `BigInt(null)` throw, which the surrounding
`catch` turns into a failure result. -/
def kQueryLoop (root claimed key : Nat) : List TraceQuery → VerifyResult
  | [] => VerifyResult.mk true "Use Verified! Knowledge of Secret Proof accepted."
  | q :: rest =>
    if merkleVerify root q.index q.value q.path = false then
      VerifyResult.mk false "Merkle Proof failed."
    else if q.index = MIMC_ROUNDS then
      if q.value = claimed then kQueryLoop root claimed key rest
      else VerifyResult.mk false "Output Mismatch: Proof execution does not lead to claimed hash."
    else
      match q.next_value with
      | none => VerifyResult.mk false "Verification Logic Error: invalid next value."
      | some nv =>
        if mimcStep key q.value (MIMC_CONSTANTS.getD q.index 0) = nv then
          kQueryLoop root claimed key rest
        else
          VerifyResult.mk false "Invalid Execution Trace: You do not know the secret that generates this hash."

/-- Per-query loop of the hash-integrity branch of `ZKVerifier.verify`
(src/unnamed/part_001 lines 106-143); identical checks, different
messages. -/
def iQueryLoop (root claimed key : Nat) : List TraceQuery → VerifyResult
  | [] => VerifyResult.mk true "STARK Proof Verified! Validated integrity via Binding."
  | q :: rest =>
    if merkleVerify root q.index q.value q.path = false then
      VerifyResult.mk false "Merkle Proof failed (Tampered Data)."
    else if q.index = MIMC_ROUNDS then
      if q.value = claimed then iQueryLoop root claimed key rest
      else VerifyResult.mk false "Boundary Constraint Failed: Trace end does not match claimed output."
    else
      match q.next_value with
      | none => VerifyResult.mk false "Verification Logic Error: invalid next value."
      | some nv =>
        if mimcStep key q.value (MIMC_CONSTANTS.getD q.index 0) = nv then
          iQueryLoop root claimed key rest
        else
          VerifyResult.mk false "Constraint Validation Failed. The Proof provided is invalid for this Hash."

/-- `ZKVerifier.verify(proofObj)` (src/unnamed/part_001 lines 25-154):
dispatch on `proof_type`; the knowledge branch derives the key from the
nonce; the hash-integrity branch requires `outputHash` to equal the decimal
`mimc_output` in native mode (key 0) and otherwise derives the key from the
whole `outputHash` string. -/
def verify (pf : ProofObj) : VerifyResult :=
  if pf.proof_type = "zk-stark-knowledge-proof" then
    kQueryLoop pf.trace_root pf.public_output (stringToField pf.nonce) pf.trace_queries
  else if pf.proof_type ≠ "zk-stark-mimc-real" then
    VerifyResult.mk false "Unknown Proof Type"
  else if pf.algorithm = "mimc-stark" then
    if pf.outputHash = decChars pf.mimc_output then
      iQueryLoop pf.trace_root pf.mimc_output 0 pf.trace_queries
    else
      VerifyResult.mk false "Data Integrity Failed: Claimed output does not match proof output."
  else
    iQueryLoop pf.trace_root pf.mimc_output (stringToField pf.outputHash) pf.trace_queries

end ZKVerifier

/-- The recurrence named by claim C5: `t_0 = x mod p`,
`t_(i+1) = ((t_i + k + c_i) mod p)^3 mod p` with `c_i = i * 123456789`.
This is the claim's mathematical object, to be compared with the
source-derived `buildTrace` and `mimcHash`. -/
def specTransition (x k : Nat) : Nat → Nat
  | 0 => x % FIELD_MODULUS
  | i + 1 =>
    ((specTransition x k i + k + i * 123456789) % FIELD_MODULUS) ^ 3 % FIELD_MODULUS

/-- A default proof object (used only to extract the value of an
`Option ProofObj` that is known to be `some`). -/
def emptyProofObj : ProofObj := ProofObj.mk "" [] 0 0 "" [] 0 []

/-! ### Concrete scenario literals (trace, Merkle layers, proof objects)
for the executable witnesses; each is validated against the pipeline by the
evaluation lemmas further below. -/

/-- Trace literal for scenario K1 (input 98, key 110). -/
def trK1 : List Nat := [98, 8998912, 2574763364, 294104666, 1397944534, 2812663962, 2841914223, 407795974, 3187910868, 2924841477, 2908647999, 719613032, 1510975094, 2614753725, 2916219970, 378203293, 1760592465, 1358582747, 1864577287, 2054005790, 2022234790, 1730073416, 228716380, 2696121783, 2790986032, 3146873347, 66593118, 2676532176, 3057441759, 1895019962, 379717787, 1611688916, 598209727, 2703879852, 411988816, 1891047434, 3145419721, 3111626625, 2596053862, 3072191532, 1348169063, 203446416, 2368319772, 1236392601, 2764833794, 1668840662, 2342455207, 1040343963, 371371324, 164150507, 2166935049, 1247829858, 615846577, 2308168726, 2873507080, 2047010304, 1934849646, 524470873, 1525090167, 2081825003, 1169315338, 1558343626, 1446967025, 2215667468, 991553281]
/-- Merkle layer 1 over `trK1`. -/
def lyK11 : List Nat := [917627362, 2752544652, 669326004, 2965492818, 2052385247, 271941232, 1066891543, 1638146487, 298573224, 1639359770, 2351570518, 1246424748, 2437874495, 3124194852, 992367726, 3131351496, 754844301, 701646529, 2148451101, 2045863796, 1229930560, 264622185, 2986767367, 136174791, 1576009085, 852845048, 2444131392, 1275737431, 3086038043, 2594859122, 1987755009, 898644543, 1002986209]
/-- Merkle layer 2 over `trK1`. -/
def lyK12 : List Nat := [3173355682, 668364113, 2301307684, 1468421636, 1735914504, 965809830, 1579476529, 2155822851, 1646649127, 2877151461, 1944447445, 1120068725, 2630516907, 510849180, 2934408110, 1137588683, 965618794]
/-- Merkle layer 3 over `trK1`. -/
def lyK13 : List Nat := [2768914308, 1447998633, 1638629410, 447257540, 422887577, 380468558, 2802394931, 2863656639, 649141663]
/-- Merkle layer 4 over `trK1`. -/
def lyK14 : List Nat := [776846554, 41334777, 2950773829, 2667973079, 332305371]
/-- Merkle layer 5 over `trK1`. -/
def lyK15 : List Nat := [2113451165, 2284811767, 1100902167]
/-- Merkle layer 6 over `trK1`. -/
def lyK16 : List Nat := [894333885, 1031966049]
/-- Merkle layer 7 over `trK1`. -/
def lyK17 : List Nat := [541844048]
/-- The proof object produced for scenario K1. -/
def pfK1 : ProofObj := { proof_type := "zk-stark-knowledge-proof", nonce := [110], public_output := 991553281, trace_root := 541844048, algorithm := "", outputHash := [], mimc_output := 0, trace_queries := [{ index := 0, value := 98, path := [some 8998912, some 2752544652, some 668364113, some 1447998633, some 41334777, some 2284811767, some 1031966049], next_value := some 8998912, next_path := some [some 98, some 2752544652, some 668364113, some 1447998633, some 41334777, some 2284811767, some 1031966049] }, { index := 27, value := 2676532176, path := [some 66593118, some 2437874495, some 2155822851, some 1638629410, some 776846554, some 2284811767, some 1031966049], next_value := some 3057441759, next_path := some [some 1895019962, some 3131351496, some 1579476529, some 1638629410, some 776846554, some 2284811767, some 1031966049] }, { index := 47, value := 1040343963, path := [some 2342455207, some 2986767367, some 1944447445, some 422887577, some 2667973079, some 2113451165, some 1031966049], next_value := some 371371324, next_path := some [some 164150507, some 852845048, some 510849180, some 2863656639, some 2950773829, some 2113451165, some 1031966049] }, { index := 52, value := 615846577, path := [some 2308168726, some 1275737431, some 2630516907, some 2863656639, some 2950773829, some 2113451165, some 1031966049], next_value := some 2308168726, next_path := some [some 615846577, some 1275737431, some 2630516907, some 2863656639, some 2950773829, some 2113451165, some 1031966049] }, { index := 54, value := 2873507080, path := [some 2047010304, some 2444131392, some 2630516907, some 2863656639, some 2950773829, some 2113451165, some 1031966049], next_value := some 2047010304, next_path := some [some 2873507080, some 2444131392, some 2630516907, some 2863656639, some 2950773829, some 2113451165, some 1031966049] }, { index := 64, value := 991553281, path := [none, none, none, none, none, none, some 894333885], next_value := none, next_path := none }] }

/-- Trace literal for scenario K2 (input 98, key 99). -/
def trK2 : List Nat := [98, 7645373, 2932210275, 2231373857, 1234271372, 84320934, 615842747, 2561028903, 1858565307, 2727334750, 2992362263, 2037751124, 1591011218, 2865423986, 2913563040, 1041985073, 2179272049, 1466444744, 2951196235, 252909124, 2035018703, 958544572, 2562953941, 1568851982, 1190516632, 1449672528, 840153605, 2983722169, 1375657512, 2042718790, 1210580669, 1753885307, 26723179, 2679996711, 1411046285, 1586454628, 815893758, 174264919, 78375724, 2229162545, 2234930919, 663823118, 1783215836, 415586904, 1749015624, 2397395571, 2513982046, 1141736562, 1772273348, 2764016526, 1546190969, 3190728349, 698066814, 3122912777, 738161205, 1279781690, 1170130276, 1858891024, 2039524166, 2459036649, 1289373450, 1297532848, 2449212756, 829410296, 1816292436]
/-- Merkle layer 1 over `trK2`. -/
def lyK21 : List Nat := [2794625870, 1206776353, 464568645, 2414118626, 1756317447, 2409415730, 562097018, 1642964285, 2640198405, 2884213184, 723306, 401256726, 1588492305, 2486370963, 3125075321, 210153, 237302357, 1926278106, 1611900435, 543886066, 1597919011, 86477178, 2387686756, 2549047542, 3207038031, 1406637912, 2943531263, 1218753625, 2732098693, 3152579069, 2444348915, 1373705817, 2449379200]
/-- Merkle layer 2 over `trK2`. -/
def lyK22 : List Nat := [3141464309, 1205780926, 2970477417, 1464081871, 468924702, 2219762747, 3132535731, 355471567, 2548077358, 1720328009, 1760464197, 1157611841, 2733396940, 1614449790, 1373163729, 2800203553, 2846847059]
/-- Merkle layer 3 over `trK2`. -/
def lyK23 : List Nat := [837242863, 1349140876, 2812010533, 1266142923, 544349061, 2838784537, 291884891, 1401999388, 3013177911]
/-- Merkle layer 4 over `trK2`. -/
def lyK24 : List Nat := [3113736673, 1908145072, 180405611, 2341548024, 1391922539]
/-- Merkle layer 5 over `trK2`. -/
def lyK25 : List Nat := [946292762, 2285258245, 1994771597]
/-- Merkle layer 6 over `trK2`. -/
def lyK26 : List Nat := [1149041026, 2953277215]
/-- Merkle layer 7 over `trK2`. -/
def lyK27 : List Nat := [1213709525]
/-- The proof object produced for scenario K2. -/
def pfK2 : ProofObj := { proof_type := "zk-stark-knowledge-proof", nonce := [99], public_output := 1816292436, trace_root := 1213709525, algorithm := "", outputHash := [], mimc_output := 0, trace_queries := [{ index := 2, value := 2932210275, path := [some 2231373857, some 2794625870, some 1205780926, some 1349140876, some 1908145072, some 2285258245, some 2953277215], next_value := some 2231373857, next_path := some [some 2932210275, some 2794625870, some 1205780926, some 1349140876, some 1908145072, some 2285258245, some 2953277215] }, { index := 24, value := 1190516632, path := [some 1449672528, some 2486370963, some 355471567, some 2812010533, some 3113736673, some 2285258245, some 2953277215], next_value := some 1449672528, next_path := some [some 1190516632, some 2486370963, some 355471567, some 2812010533, some 3113736673, some 2285258245, some 2953277215] }, { index := 39, value := 2229162545, path := [some 78375724, some 1611900435, some 2548077358, some 2838784537, some 2341548024, some 946292762, some 2953277215], next_value := some 2234930919, next_path := some [some 663823118, some 86477178, some 1157611841, some 544349061, some 2341548024, some 946292762, some 2953277215] }, { index := 46, value := 2513982046, path := [some 1141736562, some 2387686756, some 1760464197, some 544349061, some 2341548024, some 946292762, some 2953277215], next_value := some 1141736562, next_path := some [some 2513982046, some 2387686756, some 1760464197, some 544349061, some 2341548024, some 946292762, some 2953277215] }, { index := 54, value := 738161205, path := [some 1279781690, some 2943531263, some 2733396940, some 1401999388, some 180405611, some 946292762, some 2953277215], next_value := some 1279781690, next_path := some [some 738161205, some 2943531263, some 2733396940, some 1401999388, some 180405611, some 946292762, some 2953277215] }, { index := 64, value := 1816292436, path := [none, none, none, none, none, none, some 1149041026], next_value := none, next_path := none }] }

/-- Trace literal for scenario N1 (input 97, key 0). -/
def trN1 : List Nat := [97, 912673, 1403948547, 672699661, 2533042851, 1631354269, 1710807464, 303664228, 785506030, 2482154187, 1911593376, 1664917414, 2269467726, 509103469, 2209569222, 1382421864, 2094892973, 2624071972, 831859517, 2813699560, 1259508513, 53011378, 2208946910, 1234220879, 1379892806, 1389170158, 1402698848, 1820799027, 2589415638, 3120486939, 3103338646, 878265145, 3004981443, 3130683345, 826197082, 2418774577, 1114439021, 1902835080, 1811519474, 2685379438, 2480494739, 1266116000, 2870564242, 554799163, 1882275029, 3207226890, 2346035302, 2099404707, 500081376, 1999360919, 424393971, 1427623953, 1624894279, 2118300550, 2964279151, 2199692877, 597786303, 1522661732, 999147258, 369666913, 1437941722, 2746154995, 2406265629, 1625891410, 2527757861]
/-- Merkle layer 1 over `trN1`. -/
def lyN11 : List Nat := [1655241188, 2272648193, 1628822276, 51580179, 315628224, 2596655216, 2329589596, 1553229021, 1448591326, 1328069719, 3020035262, 2559756080, 1965098251, 326076203, 2746803037, 1928550554, 653534414, 1406587064, 1246258853, 1753759859, 2182742520, 2173372420, 33016774, 1960185754, 3181721036, 3065892799, 42780374, 3178755955, 415201587, 2501944359, 136954184, 536427641, 2373430074]
/-- Merkle layer 2 over `trN1`. -/
def lyN12 : List Nat := [478314743, 2471332321, 3151871477, 733685654, 144899787, 2701624088, 553789440, 769703380, 907101739, 2364660987, 410058416, 1288419813, 1245696647, 1516032166, 3208812483, 2499582554, 1920545609]
/-- Merkle layer 3 over `trN1`. -/
def lyN13 : List Nat := [510623476, 2376292086, 137358783, 365222996, 2722831719, 1130267572, 1394962354, 345380116, 1216065042]
/-- Merkle layer 4 over `trN1`. -/
def lyN14 : List Nat := [220281002, 1994824429, 1300552445, 1479405075, 2634154082]
/-- Merkle layer 5 over `trN1`. -/
def lyN15 : List Nat := [2664254033, 980509632, 1842619056]
/-- Merkle layer 6 over `trN1`. -/
def lyN16 : List Nat := [37638321, 1776282736]
/-- Merkle layer 7 over `trN1`. -/
def lyN17 : List Nat := [1603058277]
/-- The proof object produced for scenario N1. -/
def pfN1 : ProofObj := { proof_type := "zk-stark-mimc-real", nonce := [], public_output := 0, trace_root := 1603058277, algorithm := "mimc-stark", outputHash := [50, 53, 50, 55, 55, 53, 55, 56, 54, 49], mimc_output := 2527757861, trace_queries := [{ index := 1, value := 912673, path := [some 97, some 2272648193, some 2471332321, some 2376292086, some 1994824429, some 980509632, some 1776282736], next_value := some 1403948547, next_path := some [some 672699661, some 1655241188, some 2471332321, some 2376292086, some 1994824429, some 980509632, some 1776282736] }, { index := 27, value := 1820799027, path := [some 1402698848, some 1965098251, some 769703380, some 137358783, some 220281002, some 980509632, some 1776282736], next_value := some 2589415638, next_path := some [some 3120486939, some 1928550554, some 553789440, some 137358783, some 220281002, some 980509632, some 1776282736] }, { index := 28, value := 2589415638, path := [some 3120486939, some 1928550554, some 553789440, some 137358783, some 220281002, some 980509632, some 1776282736], next_value := some 3120486939, next_path := some [some 2589415638, some 1928550554, some 553789440, some 137358783, some 220281002, some 980509632, some 1776282736] }, { index := 46, value := 2346035302, path := [some 2099404707, some 33016774, some 410058416, some 2722831719, some 1479405075, some 2664254033, some 1776282736], next_value := some 2099404707, next_path := some [some 2346035302, some 33016774, some 410058416, some 2722831719, some 1479405075, some 2664254033, some 1776282736] }, { index := 60, value := 1437941722, path := [some 2746154995, some 536427641, some 3208812483, some 1394962354, some 1300552445, some 2664254033, some 1776282736], next_value := some 2746154995, next_path := some [some 1437941722, some 536427641, some 3208812483, some 1394962354, some 1300552445, some 2664254033, some 1776282736] }, { index := 64, value := 2527757861, path := [none, none, none, none, none, none, some 37638321], next_value := none, next_path := none }] }

/-! ### Basic field-range facts -/

theorem FIELD_MODULUS_pos : 0 < FIELD_MODULUS := by decide

theorem mimcStep_lt (k curr c : Nat) : mimcStep k curr c < FIELD_MODULUS :=
  Nat.mod_lt _ FIELD_MODULUS_pos

theorem mimcHash_lt (x k : Nat) : mimcHash x k < FIELD_MODULUS :=
  Nat.mod_lt _ FIELD_MODULUS_pos

theorem hashPair_lt (a b : Option Nat) : hashPair a b < FIELD_MODULUS :=
  mimcHash_lt _ _

theorem mimcStep_eq_cube (k v c : Nat) :
    mimcStep k v c = ((v + k + c) % FIELD_MODULUS) ^ 3 % FIELD_MODULUS := by
  unfold mimcStep
  rw [pow_succ, sq]
  rw [Nat.mod_mul_mod]

/-! ### The prover's trace-building loop -/

theorem buildTraceAux_length (k : Nat) :
    ∀ (cs : List Nat) (curr : Nat), (buildTraceAux k curr cs).length = cs.length + 1 := by
  intro cs
  induction cs with
  | nil => intro curr; rfl
  | cons c cs ih => intro curr; simp [buildTraceAux, ih]

theorem buildTraceAux_getD_zero (k : Nat) (cs : List Nat) (curr : Nat) :
    (buildTraceAux k curr cs).getD 0 0 = curr := by
  cases cs <;> rfl

theorem buildTraceAux_getD_step (k : Nat) :
    ∀ (cs : List Nat) (i : Nat) (curr : Nat), i < cs.length →
      (buildTraceAux k curr cs).getD (i + 1) 0 =
        mimcStep k ((buildTraceAux k curr cs).getD i 0) (cs.getD i 0) := by
  intro cs
  induction cs with
  | nil => intro i curr h; simp at h
  | cons c cs ih =>
    intro i curr h
    cases i with
    | zero =>
      show (buildTraceAux k (mimcStep k curr c) cs).getD 0 0 = _
      rw [buildTraceAux_getD_zero]
      rfl
    | succ i =>
      show (buildTraceAux k (mimcStep k curr c) cs).getD (i + 1) 0 = _
      rw [ih i (mimcStep k curr c) (by simpa using h)]
      rfl

theorem buildTrace_length (x k : Nat) : (buildTrace x k).length = 65 := by
  unfold buildTrace
  rw [buildTraceAux_length]
  rfl

theorem buildTrace_getD_zero (x k : Nat) : (buildTrace x k).getD 0 0 = x :=
  buildTraceAux_getD_zero _ _ _

theorem MIMC_CONSTANTS_getD : ∀ i, i < 64 → MIMC_CONSTANTS.getD i 0 = i * 123456789 := by
  decide

theorem buildTrace_step (x k i : Nat) (h : i < 64) :
    (buildTrace x k).getD (i + 1) 0 =
      mimcStep k ((buildTrace x k).getD i 0) (i * 123456789) := by
  unfold buildTrace
  rw [buildTraceAux_getD_step k MIMC_CONSTANTS i x (by rw [show MIMC_CONSTANTS.length = 64 from rfl]; exact h)]
  rw [MIMC_CONSTANTS_getD i h]

theorem foldl_mimcStep_eq_getD (k : Nat) :
    ∀ (cs : List Nat) (curr : Nat),
      cs.foldl (fun c1 c2 => mimcStep k c1 c2) curr = (buildTraceAux k curr cs).getD cs.length 0 := by
  intro cs
  induction cs with
  | nil => intro curr; rfl
  | cons c cs ih =>
    intro curr
    show cs.foldl _ (mimcStep k curr c) = (buildTraceAux k curr (c :: cs)).getD (cs.length + 1) 0
    rw [ih (mimcStep k curr c)]
    rfl

/-- The MiMC hash is the last trace state plus the closing key addition:
the trace loop itself has no final key fold. -/
theorem mimcHash_eq_trace (x k : Nat) :
    mimcHash x k = ((buildTrace x k).getD 64 0 + k) % FIELD_MODULUS := by
  unfold mimcHash buildTrace
  rw [foldl_mimcStep_eq_getD]
  rfl

/-! ### The claim-side transition recurrence (C5) -/

theorem buildTrace_eq_specTransition (x k : Nat) (hx : x < FIELD_MODULUS) :
    ∀ i, i ≤ 64 → (buildTrace x k).getD i 0 = specTransition x k i := by
  intro i
  induction i with
  | zero =>
    intro _
    rw [buildTrace_getD_zero, specTransition, Nat.mod_eq_of_lt hx]
  | succ i ih =>
    intro h
    rw [buildTrace_step x k i (by omega), ih (by omega), specTransition,
      mimcStep_eq_cube]

/-! ### The two string-to-field implementations (C10) -/

theorem foldl_int_eq_nat (s : List Nat) :
    ∀ a : Nat, (s.foldl (fun (v : Int) (c : Nat) => v * 256 + (c : Int)) (a : Int)) =
      ((s.foldl (fun v c => v * 256 + c) a : Nat) : Int) := by
  induction s with
  | nil => intro a; rfl
  | cons c s ih =>
    intro a
    rw [List.foldl_cons, List.foldl_cons]
    have h : ((a : Int) * 256 + (c : Int)) = ((a * 256 + c : Nat) : Int) := by push_cast; ring
    rw [h, ih (a * 256 + c)]

theorem stringToField_agree (s : List Nat) :
    ZKProver.stringToField s = ZKVerifier.stringToField s := by
  unfold ZKProver.stringToField ZKVerifier.stringToField FieldElement.mkVal
  rw [show ((0 : Int)) = ((0 : Nat) : Int) from rfl, foldl_int_eq_nat s 0]
  generalize (s.foldl (fun v c => v * 256 + c) 0) = n
  unfold FIELD_MODULUS
  omega

/-! ### Merkle tree: authentication paths fold back to the root -/

theorem getD_eq_of_get? : ∀ (l : List Nat) (j a : Nat), l.get? j = some a → l.getD j 0 = a := by
  intro l
  induction l with
  | nil => intro j a h; simp at h
  | cons x xs ih =>
    intro j a h
    cases j with
    | zero =>
      rw [List.get?_cons_zero] at h
      simpa using h
    | succ j =>
      rw [List.get?_cons_succ] at h
      rw [List.getD_cons_succ]
      exact ih j a h

theorem get?_eq_some_getD (l : List Nat) (j : Nat) (h : j < l.length) :
    l.get? j = some (l.getD j 0) := by
  cases hq : l.get? j with
  | none => exact absurd (List.get?_eq_none.mp hq) (by omega)
  | some a => rw [getD_eq_of_get? l j a hq]

theorem pairUp_length : ∀ l : List Nat, (pairUp l).length = (l.length + 1) / 2 := by
  intro l
  induction l using pairUp.induct with
  | case1 => rfl
  | case2 a => simp [pairUp]
  | case3 a b rest ih => simp [pairUp, ih]; omega

theorem pairUp_get? :
    ∀ (l : List Nat) (k : Nat), 2 * k < l.length →
      (pairUp l).get? k = some (hashPair (some (l.getD (2 * k) 0)) (l.get? (2 * k + 1))) := by
  intro l
  induction l using pairUp.induct with
  | case1 => intro k h; simp at h
  | case2 a =>
    intro k h
    have hk : k = 0 := by simpa using h
    subst hk
    rfl
  | case3 a b rest ih =>
    intro k h
    cases k with
    | zero => rfl
    | succ k =>
      have h2 : 2 * k < rest.length := by
        simp only [List.length_cons] at h
        omega
      show (pairUp rest).get? k = _
      rw [ih k h2]
      have e1 : 2 * (k + 1) = 2 * k + 1 + 1 := by omega
      rw [e1]
      rfl

theorem buildLayersAux_cons (fuel : Nat) (l : List Nat) :
    ∃ tl, buildLayersAux fuel l = l :: tl := by
  cases fuel with
  | zero => exact ⟨[], rfl⟩
  | succ fuel =>
    unfold buildLayersAux
    by_cases h : l.length ≤ 1
    · rw [if_pos h]; exact ⟨[], rfl⟩
    · rw [if_neg h]; exact ⟨_, rfl⟩

theorem merkleFold_step_eq (l : List Nat) (i : Nat) (h : i < l.length) :
    (if i % 2 = 0 then hashPair (some (l.getD i 0)) (l.get? (if i % 2 = 0 then i + 1 else i - 1))
     else hashPair (l.get? (if i % 2 = 0 then i + 1 else i - 1)) (some (l.getD i 0)))
    = (pairUp l).getD (i / 2) 0 := by
  by_cases hpar : i % 2 = 0
  · have h2 : 2 * (i / 2) = i := by omega
    have hp := pairUp_get? l (i / 2) (by omega)
    rw [h2] at hp
    rw [if_pos hpar, if_pos hpar, getD_eq_of_get? _ _ _ hp]
  · have h2 : 2 * (i / 2) = i - 1 := by omega
    have hp := pairUp_get? l (i / 2) (by omega)
    rw [h2, show i - 1 + 1 = i by omega] at hp
    rw [if_neg hpar, if_neg hpar, getD_eq_of_get? _ _ _ hp,
      get?_eq_some_getD l (i - 1) (by omega), get?_eq_some_getD l i h]

theorem rootOfLayers_cons (l l' : List Nat) (tl : List (List Nat)) :
    rootOfLayers (l :: l' :: tl) = rootOfLayers (l' :: tl) := by
  simp [rootOfLayers, List.getLastD_cons]

theorem merkleFold_layers :
    ∀ (fuel : Nat) (l : List Nat) (i : Nat), l.length ≤ fuel + 1 → i < l.length →
      merkleFold (l.getD i 0) i (getPathAux (buildLayersAux fuel l) i) =
        rootOfLayers (buildLayersAux fuel l) := by
  intro fuel
  induction fuel with
  | zero =>
    intro l i hf hi
    match l, hf, hi with
    | [a], _, hi =>
      have : i = 0 := by simpa using hi
      subst this
      rfl
  | succ fuel ih =>
    intro l i hf hi
    by_cases h1 : l.length ≤ 1
    · match l, h1, hi with
      | [a], _, hi =>
        have : i = 0 := by simpa using hi
        subst this
        rfl
    · show merkleFold (l.getD i 0) i
        (getPathAux (buildLayersAux (fuel + 1) l) i) = _
      rw [show buildLayersAux (fuel + 1) l = l :: buildLayersAux fuel (pairUp l) by
        rw [show buildLayersAux (fuel + 1) l
            = if l.length ≤ 1 then [l] else l :: buildLayersAux fuel (pairUp l) from rfl,
          if_neg h1]]
      obtain ⟨tl, htl⟩ := buildLayersAux_cons fuel (pairUp l)
      rw [htl]
      show merkleFold (l.getD i 0) i
        ((l.get? (if i % 2 = 0 then i + 1 else i - 1)) ::
          getPathAux (pairUp l :: tl) (i / 2)) = _
      rw [rootOfLayers_cons, ← htl]
      have hplen : (pairUp l).length = (l.length + 1) / 2 := pairUp_length l
      have hstep := merkleFold_step_eq l i hi
      unfold merkleFold
      rw [show (if i % 2 = 0 then
            hashPair (some (l.getD i 0)) (l.get? (if i % 2 = 0 then i + 1 else i - 1))
          else hashPair (l.get? (if i % 2 = 0 then i + 1 else i - 1)) (some (l.getD i 0)))
          = (pairUp l).getD (i / 2) 0 from hstep]
      exact ih (pairUp l) (i / 2) (by omega) (by omega)

/-- Honest-path round trip: for every leaf index, verifying the extracted
authentication path against the tree root succeeds. -/
theorem merkle_roundtrip (l : List Nat) (i : Nat) (h : i < l.length) :
    merkleVerify (merkleRoot l) i (l.getD i 0) (getPath (buildLayers l) i) = true := by
  unfold merkleVerify merkleRoot buildLayers getPath
  rw [merkleFold_layers l.length l i (by omega) h]
  simp

/-! ### Fiat-Shamir sampler -/

/-- With `numQueries = 2` and `domainSize = 1` the index set is stuck at
`[0]`: every iteration recomputes `idx = 0`, already present, and the
uncapped source loop never exits.  (No `TranscriptStuck` error exists in
the code.) -/
theorem fsLoop_stuck_at_zero (seed : Nat) :
    ∀ fuel counter, fsLoop seed 2 1 fuel [0] counter = none := by
  intro fuel
  induction fuel with
  | zero => intro counter; rfl
  | succ fuel ih =>
    intro counter
    show fsLoop seed 2 1 fuel _ (counter + 1) = none
    rw [show mimcHash seed counter % 1 = 0 from Nat.mod_one _]
    exact ih (counter + 1)

theorem generateFiatShamirQueries_starved (seed : Nat) :
    ∀ fuel, generateFiatShamirQueries seed 2 1 fuel = none := by
  intro fuel
  unfold generateFiatShamirQueries
  cases fuel with
  | zero => rfl
  | succ fuel =>
    show ((fsLoop seed 2 1 fuel
      (if mimcHash seed 0 % 1 < 1 then
        (if mimcHash seed 0 % 1 ∈ ([] : List Nat) then [] else [] ++ [mimcHash seed 0 % 1])
       else []) 1).map (List.insertionSort (· ≤ ·))) = none
    rw [show mimcHash seed 0 % 1 = 0 from Nat.mod_one _]
    rw [show (if (0 : Nat) < 1 then
        (if (0 : Nat) ∈ ([] : List Nat) then ([] : List Nat) else [] ++ [0]) else []) = [0] by simp]
    rw [fsLoop_stuck_at_zero seed fuel 1]
    rfl

theorem fsLoop_invariant (seed n d : Nat) :
    ∀ (fuel : Nat) (acc : List Nat) (counter : Nat) (out : List Nat),
      fsLoop seed n d fuel acc counter = some out →
      acc.length ≤ n → acc.Nodup → (∀ x ∈ acc, x < d) →
      out.length = n ∧ out.Nodup ∧ ∀ x ∈ out, x < d := by
  intro fuel
  induction fuel with
  | zero =>
    intro acc counter out hout hlen hnd hbd
    unfold fsLoop at hout
    by_cases h : acc.length < n
    · rw [if_pos h] at hout; exact absurd hout (by simp)
    · rw [if_neg h] at hout
      injection hout with hout
      subst hout
      exact ⟨by omega, hnd, hbd⟩
  | succ fuel ih =>
    intro acc counter out hout hlen hnd hbd
    unfold fsLoop at hout
    by_cases h : acc.length < n
    · rw [if_pos h] at hout
      simp only [] at hout
      by_cases hd : mimcHash seed counter % d < d
      · rw [if_pos hd] at hout
        by_cases hm : mimcHash seed counter % d ∈ acc
        · rw [if_pos hm] at hout
          exact ih acc (counter + 1) out hout hlen hnd hbd
        · rw [if_neg hm] at hout
          refine ih _ (counter + 1) out hout ?_ ?_ ?_
          · simp; omega
          · simp [List.nodup_append, hnd, hm]
          · intro x hx
            rcases List.mem_append.mp hx with hx | hx
            · exact hbd x hx
            · simp at hx; omega
      · rw [if_neg hd] at hout
        exact ih acc (counter + 1) out hout hlen hnd hbd
    · rw [if_neg h] at hout
      injection hout with hout
      subst hout
      exact ⟨by omega, hnd, hbd⟩

/-- Whatever the sampler returns is a sorted list of `n` distinct indices
below the domain; this is the positive half of claim C8. -/
theorem generateFiatShamirQueries_sound (root n d fuel : Nat) (out : List Nat)
    (h : generateFiatShamirQueries root n d fuel = some out) :
    out.length = n ∧ out.Nodup ∧ ∀ x ∈ out, x < d := by
  unfold generateFiatShamirQueries at h
  cases hl : fsLoop root n d fuel [] 0 with
  | none => rw [hl] at h; exact absurd h (by simp)
  | some raw =>
    rw [hl] at h
    simp only [Option.map_some'] at h
    obtain ⟨h1, h2, h3⟩ := fsLoop_invariant root n d fuel [] 0 raw hl (by simp) (by simp) (by simp)
    have hperm : (List.insertionSort (· ≤ ·) raw).Perm raw := List.perm_insertionSort _ raw
    injection h with h
    subst h
    refine ⟨by rw [hperm.length_eq, h1], hperm.nodup_iff.mpr h2, ?_⟩
    intro x hx
    exact h3 x (hperm.mem_iff.mp hx)

/-! ### Verifier query loops -/

namespace ZKVerifier

/-- Sufficient per-query conditions under which the knowledge-branch loop
returns the success result. -/
theorem kQueryLoop_success_of (root claimed key : Nat) :
    ∀ qs : List TraceQuery,
      (∀ q ∈ qs, merkleVerify root q.index q.value q.path = true ∧
         (q.index = MIMC_ROUNDS → q.value = claimed) ∧
         (q.index ≠ MIMC_ROUNDS →
           q.next_value = some (mimcStep key q.value (MIMC_CONSTANTS.getD q.index 0)))) →
      (kQueryLoop root claimed key qs).success = true := by
  intro qs
  induction qs with
  | nil => intro _; rfl
  | cons q rest ih =>
    intro h
    obtain ⟨hm, hb, ht⟩ := h q (by simp)
    have hrest := fun q hq => h q (List.mem_cons_of_mem _ hq)
    unfold kQueryLoop
    rw [hm]
    simp only [Bool.true_eq_false, if_false]
    by_cases hidx : q.index = MIMC_ROUNDS
    · rw [if_pos hidx, if_pos (hb hidx)]
      exact ih hrest
    · rw [if_neg hidx, ht hidx]
      simp only []
      rw [if_pos trivial]
      exact ih hrest

/-- Same as `kQueryLoop_success_of` for the hash-integrity branch. -/
theorem iQueryLoop_success_of (root claimed key : Nat) :
    ∀ qs : List TraceQuery,
      (∀ q ∈ qs, merkleVerify root q.index q.value q.path = true ∧
         (q.index = MIMC_ROUNDS → q.value = claimed) ∧
         (q.index ≠ MIMC_ROUNDS →
           q.next_value = some (mimcStep key q.value (MIMC_CONSTANTS.getD q.index 0)))) →
      (iQueryLoop root claimed key qs).success = true := by
  intro qs
  induction qs with
  | nil => intro _; rfl
  | cons q rest ih =>
    intro h
    obtain ⟨hm, hb, ht⟩ := h q (by simp)
    have hrest := fun q hq => h q (List.mem_cons_of_mem _ hq)
    unfold iQueryLoop
    rw [hm]
    simp only [Bool.true_eq_false, if_false]
    by_cases hidx : q.index = MIMC_ROUNDS
    · rw [if_pos hidx, if_pos (hb hidx)]
      exact ih hrest
    · rw [if_neg hidx, ht hidx]
      simp only []
      rw [if_pos trivial]
      exact ih hrest

/-- When the knowledge-branch loop succeeds, every non-boundary query's
`next_value` equals the recomputed transition. -/
theorem kQueryLoop_success_transition (root claimed key : Nat) :
    ∀ qs : List TraceQuery, (kQueryLoop root claimed key qs).success = true →
      ∀ q ∈ qs, q.index ≠ MIMC_ROUNDS →
        q.next_value = some (mimcStep key q.value (MIMC_CONSTANTS.getD q.index 0)) := by
  intro qs
  induction qs with
  | nil => intro _ q hq; simp at hq
  | cons p rest ih =>
    intro h q hq hidx
    unfold kQueryLoop at h
    by_cases hm : merkleVerify root p.index p.value p.path = false
    · rw [if_pos hm] at h; exact absurd h (by simp)
    · rw [if_neg hm] at h
      rcases List.mem_cons.mp hq with hq | hq
      · subst hq
        rw [if_neg hidx] at h
        cases hnv : q.next_value with
        | none => rw [hnv] at h; exact absurd h (by simp)
        | some nv =>
          rw [hnv] at h
          simp only [] at h
          by_cases he : mimcStep key q.value (MIMC_CONSTANTS.getD q.index 0) = nv
          · rw [he]
          · rw [if_neg he] at h; exact absurd h (by simp)
      · by_cases hpidx : p.index = MIMC_ROUNDS
        · rw [if_pos hpidx] at h
          by_cases hv : p.value = claimed
          · rw [if_pos hv] at h; exact ih h q hq hidx
          · rw [if_neg hv] at h; exact absurd h (by simp)
        · rw [if_neg hpidx] at h
          cases hnv : p.next_value with
          | none => rw [hnv] at h; exact absurd h (by simp)
          | some nv =>
            rw [hnv] at h
            simp only [] at h
            by_cases he : mimcStep key p.value (MIMC_CONSTANTS.getD p.index 0) = nv
            · rw [if_pos he] at h; exact ih h q hq hidx
            · rw [if_neg he] at h; exact absurd h (by simp)

/-- When the knowledge-branch loop succeeds, every boundary query's value
equals the claimed output. -/
theorem kQueryLoop_success_boundary (root claimed key : Nat) :
    ∀ qs : List TraceQuery, (kQueryLoop root claimed key qs).success = true →
      ∀ q ∈ qs, q.index = MIMC_ROUNDS → q.value = claimed := by
  intro qs
  induction qs with
  | nil => intro _ q hq; simp at hq
  | cons p rest ih =>
    intro h q hq hidx
    unfold kQueryLoop at h
    by_cases hm : merkleVerify root p.index p.value p.path = false
    · rw [if_pos hm] at h; exact absurd h (by simp)
    · rw [if_neg hm] at h
      rcases List.mem_cons.mp hq with hq | hq
      · subst hq
        rw [if_pos hidx] at h
        by_cases hv : q.value = claimed
        · exact hv
        · rw [if_neg hv] at h; exact absurd h (by simp)
      · by_cases hpidx : p.index = MIMC_ROUNDS
        · rw [if_pos hpidx] at h
          by_cases hv : p.value = claimed
          · rw [if_pos hv] at h; exact ih h q hq hidx
          · rw [if_neg hv] at h; exact absurd h (by simp)
        · rw [if_neg hpidx] at h
          cases hnv : p.next_value with
          | none => rw [hnv] at h; exact absurd h (by simp)
          | some nv =>
            rw [hnv] at h
            simp only [] at h
            by_cases he : mimcStep key p.value (MIMC_CONSTANTS.getD p.index 0) = nv
            · rw [if_pos he] at h; exact ih h q hq hidx
            · rw [if_neg he] at h; exact absurd h (by simp)

/-- Same as `kQueryLoop_success_transition` for the hash-integrity loop. -/
theorem iQueryLoop_success_transition (root claimed key : Nat) :
    ∀ qs : List TraceQuery, (iQueryLoop root claimed key qs).success = true →
      ∀ q ∈ qs, q.index ≠ MIMC_ROUNDS →
        q.next_value = some (mimcStep key q.value (MIMC_CONSTANTS.getD q.index 0)) := by
  intro qs
  induction qs with
  | nil => intro _ q hq; simp at hq
  | cons p rest ih =>
    intro h q hq hidx
    unfold iQueryLoop at h
    by_cases hm : merkleVerify root p.index p.value p.path = false
    · rw [if_pos hm] at h; exact absurd h (by simp)
    · rw [if_neg hm] at h
      rcases List.mem_cons.mp hq with hq | hq
      · subst hq
        rw [if_neg hidx] at h
        cases hnv : q.next_value with
        | none => rw [hnv] at h; exact absurd h (by simp)
        | some nv =>
          rw [hnv] at h
          simp only [] at h
          by_cases he : mimcStep key q.value (MIMC_CONSTANTS.getD q.index 0) = nv
          · rw [he]
          · rw [if_neg he] at h; exact absurd h (by simp)
      · by_cases hpidx : p.index = MIMC_ROUNDS
        · rw [if_pos hpidx] at h
          by_cases hv : p.value = claimed
          · rw [if_pos hv] at h; exact ih h q hq hidx
          · rw [if_neg hv] at h; exact absurd h (by simp)
        · rw [if_neg hpidx] at h
          cases hnv : p.next_value with
          | none => rw [hnv] at h; exact absurd h (by simp)
          | some nv =>
            rw [hnv] at h
            simp only [] at h
            by_cases he : mimcStep key p.value (MIMC_CONSTANTS.getD p.index 0) = nv
            · rw [if_pos he] at h; exact ih h q hq hidx
            · rw [if_neg he] at h; exact absurd h (by simp)

/-- Same as `kQueryLoop_success_boundary` for the hash-integrity loop. -/
theorem iQueryLoop_success_boundary (root claimed key : Nat) :
    ∀ qs : List TraceQuery, (iQueryLoop root claimed key qs).success = true →
      ∀ q ∈ qs, q.index = MIMC_ROUNDS → q.value = claimed := by
  intro qs
  induction qs with
  | nil => intro _ q hq; simp at hq
  | cons p rest ih =>
    intro h q hq hidx
    unfold iQueryLoop at h
    by_cases hm : merkleVerify root p.index p.value p.path = false
    · rw [if_pos hm] at h; exact absurd h (by simp)
    · rw [if_neg hm] at h
      rcases List.mem_cons.mp hq with hq | hq
      · subst hq
        rw [if_pos hidx] at h
        by_cases hv : q.value = claimed
        · exact hv
        · rw [if_neg hv] at h; exact absurd h (by simp)
      · by_cases hpidx : p.index = MIMC_ROUNDS
        · rw [if_pos hpidx] at h
          by_cases hv : p.value = claimed
          · rw [if_pos hv] at h; exact ih h q hq hidx
          · rw [if_neg hv] at h; exact absurd h (by simp)
        · rw [if_neg hpidx] at h
          cases hnv : p.next_value with
          | none => rw [hnv] at h; exact absurd h (by simp)
          | some nv =>
            rw [hnv] at h
            simp only [] at h
            by_cases he : mimcStep key p.value (MIMC_CONSTANTS.getD p.index 0) = nv
            · rw [if_pos he] at h; exact ih h q hq hidx
            · rw [if_neg he] at h; exact absurd h (by simp)

end ZKVerifier

namespace ZKVerifier

/-- The knowledge-branch loop never reads `next_path`: replacing every
query's `next_path` by anything leaves the result unchanged. -/
theorem kQueryLoop_next_path_irrelevant (root claimed key : Nat)
    (g : TraceQuery → Option (List (Option Nat))) :
    ∀ qs : List TraceQuery,
      kQueryLoop root claimed key (qs.map (fun q => { q with next_path := g q })) =
        kQueryLoop root claimed key qs := by
  intro qs
  induction qs with
  | nil => rfl
  | cons q rest ih =>
    rw [List.map_cons]
    unfold kQueryLoop
    simp only []
    rw [ih]

/-- Same as `kQueryLoop_next_path_irrelevant` for the hash-integrity loop. -/
theorem iQueryLoop_next_path_irrelevant (root claimed key : Nat)
    (g : TraceQuery → Option (List (Option Nat))) :
    ∀ qs : List TraceQuery,
      iQueryLoop root claimed key (qs.map (fun q => { q with next_path := g q })) =
        iQueryLoop root claimed key qs := by
  intro qs
  induction qs with
  | nil => rfl
  | cons q rest ih =>
    rw [List.map_cons]
    unfold iQueryLoop
    simp only []
    rw [ih]

/-- `ZKVerifier.verify` never reads any query's `next_path`. -/
theorem verify_next_path_irrelevant (pf : ProofObj)
    (g : TraceQuery → Option (List (Option Nat))) :
    verify { pf with trace_queries := pf.trace_queries.map (fun q => { q with next_path := g q }) } =
      verify pf := by
  unfold verify
  simp only []
  rw [kQueryLoop_next_path_irrelevant, iQueryLoop_next_path_irrelevant,
    iQueryLoop_next_path_irrelevant]

end ZKVerifier

/-! ### Completeness: honestly generated proofs verify -/

theorem generateKnowledgeProof_verifies (secret nonce : List Nat) (fuel : Nat) (pf : ProofObj)
    (h : ZKProver.generateKnowledgeProof secret nonce fuel = some pf) :
    (ZKVerifier.verify pf).success = true := by
  unfold ZKProver.generateKnowledgeProof at h
  simp only [] at h
  cases hfs : generateFiatShamirQueries
      (merkleRoot (buildTrace (ZKProver.stringToField secret) (ZKProver.stringToField nonce)))
      5 MIMC_ROUNDS fuel with
  | none => rw [hfs] at h; exact absurd h (by simp)
  | some indices =>
    rw [hfs] at h
    simp only [] at h
    injection h with h
    subst h
    obtain ⟨hlen, hnd, hbd⟩ := generateFiatShamirQueries_sound _ 5 MIMC_ROUNDS fuel indices hfs
    unfold ZKVerifier.verify
    dsimp only []
    rw [if_pos rfl]
    apply ZKVerifier.kQueryLoop_success_of
    intro q hq
    have htracelen : (buildTrace (ZKProver.stringToField secret) (ZKProver.stringToField nonce)).length = 65 :=
      buildTrace_length _ _
    rcases List.mem_append.mp hq with hq | hq
    · obtain ⟨idx, hidx, rfl⟩ := List.mem_map.mp hq
      have h64 : idx < 64 := hbd idx hidx
      dsimp only []
      refine ⟨?_, ?_, ?_⟩
      · exact merkle_roundtrip
          (buildTrace (ZKProver.stringToField secret) (ZKProver.stringToField nonce)) idx
          (by rw [htracelen]; omega)
      · intro habs
        rw [habs] at h64
        exact absurd h64 (by decide)
      · intro _
        rw [buildTrace_step _ _ idx h64, MIMC_CONSTANTS_getD idx h64, stringToField_agree nonce]
    · rw [List.mem_singleton.mp hq]
      dsimp only []
      refine ⟨?_, ?_, ?_⟩
      · exact merkle_roundtrip
          (buildTrace (ZKProver.stringToField secret) (ZKProver.stringToField nonce)) MIMC_ROUNDS
          (by rw [htracelen]; decide)
      · intro _; rfl
      · intro habs; exact absurd rfl habs

theorem generateProofNative_verifies (password : List Nat) (fuel : Nat) (pf : ProofObj)
    (h : ZKProver.generateProofNative password fuel = some pf) :
    (ZKVerifier.verify pf).success = true := by
  unfold ZKProver.generateProofNative at h
  simp only [] at h
  cases hfs : generateFiatShamirQueries
      (merkleRoot (buildTrace (ZKProver.stringToField password) 0)) 5 MIMC_ROUNDS fuel with
  | none => rw [hfs] at h; exact absurd h (by simp)
  | some indices =>
    rw [hfs] at h
    simp only [] at h
    injection h with h
    subst h
    obtain ⟨hlen, hnd, hbd⟩ := generateFiatShamirQueries_sound _ 5 MIMC_ROUNDS fuel indices hfs
    unfold ZKVerifier.verify
    dsimp only []
    rw [if_neg (show ¬ ("zk-stark-mimc-real" = "zk-stark-knowledge-proof") from by decide),
      if_neg (show ¬ ("zk-stark-mimc-real" ≠ "zk-stark-mimc-real") from by decide),
      if_pos rfl, if_pos rfl]
    apply ZKVerifier.iQueryLoop_success_of
    intro q hq
    have htracelen : (buildTrace (ZKProver.stringToField password) 0).length = 65 :=
      buildTrace_length _ _
    rcases List.mem_append.mp hq with hq | hq
    · obtain ⟨idx, hidx, rfl⟩ := List.mem_map.mp hq
      have h64 : idx < 64 := hbd idx hidx
      dsimp only []
      refine ⟨?_, ?_, ?_⟩
      · exact merkle_roundtrip (buildTrace (ZKProver.stringToField password) 0) idx
          (by rw [htracelen]; omega)
      · intro habs
        rw [habs] at h64
        exact absurd h64 (by decide)
      · intro _
        rw [buildTrace_step _ _ idx h64, MIMC_CONSTANTS_getD idx h64]
    · rw [List.mem_singleton.mp hq]
      dsimp only []
      refine ⟨?_, ?_, ?_⟩
      · exact merkle_roundtrip (buildTrace (ZKProver.stringToField password) 0) MIMC_ROUNDS
          (by rw [htracelen]; decide)
      · intro _; rfl
      · intro habs; exact absurd rfl habs

/-! ### Concrete pipeline evaluations, chunked layer by layer so that no
single kernel reduction nests deeper than one MiMC evaluation. -/

theorem trK1_eq : buildTrace 98 110 = trK1 := by decide

theorem lyK11_eq : pairUp trK1 = lyK11 := by decide

theorem lyK12_eq : pairUp lyK11 = lyK12 := by decide

theorem lyK13_eq : pairUp lyK12 = lyK13 := by decide

theorem lyK14_eq : pairUp lyK13 = lyK14 := by decide

theorem lyK15_eq : pairUp lyK14 = lyK15 := by decide

theorem lyK16_eq : pairUp lyK15 = lyK16 := by decide

theorem lyK17_eq : pairUp lyK16 = lyK17 := by decide

theorem layersK1_eq : buildLayers trK1 = [trK1, lyK11, lyK12, lyK13, lyK14, lyK15, lyK16, lyK17] := by
  unfold buildLayers
  rw [show (trK1).length = 65 from rfl]
  rw [show buildLayersAux 65 trK1 = trK1 :: buildLayersAux 64 (pairUp trK1) from rfl,
    lyK11_eq]
  rw [show buildLayersAux 64 lyK11 = lyK11 :: buildLayersAux 63 (pairUp lyK11) from rfl,
    lyK12_eq]
  rw [show buildLayersAux 63 lyK12 = lyK12 :: buildLayersAux 62 (pairUp lyK12) from rfl,
    lyK13_eq]
  rw [show buildLayersAux 62 lyK13 = lyK13 :: buildLayersAux 61 (pairUp lyK13) from rfl,
    lyK14_eq]
  rw [show buildLayersAux 61 lyK14 = lyK14 :: buildLayersAux 60 (pairUp lyK14) from rfl,
    lyK15_eq]
  rw [show buildLayersAux 60 lyK15 = lyK15 :: buildLayersAux 59 (pairUp lyK15) from rfl,
    lyK16_eq]
  rw [show buildLayersAux 59 lyK16 = lyK16 :: buildLayersAux 58 (pairUp lyK16) from rfl,
    lyK17_eq]
  rw [show buildLayersAux 58 lyK17 = [lyK17] from rfl]

theorem rootK1_eq : merkleRoot trK1 = 541844048 := by
  unfold merkleRoot
  rw [layersK1_eq]
  rfl

theorem fsK1_eq : generateFiatShamirQueries 541844048 5 MIMC_ROUNDS 8 = some [0, 27, 47, 52, 54] := by
  decide

theorem genK1_eq : ZKProver.generateKnowledgeProof [98] [110] 8 = some pfK1 := by
  unfold ZKProver.generateKnowledgeProof
  simp only [show ZKProver.stringToField [98] = 98 from by decide,
    show ZKProver.stringToField [110] = 110 from by decide,
    trK1_eq, layersK1_eq, rootK1_eq, fsK1_eq]
  decide

theorem trK2_eq : buildTrace 98 99 = trK2 := by decide

theorem lyK21_eq : pairUp trK2 = lyK21 := by decide

theorem lyK22_eq : pairUp lyK21 = lyK22 := by decide

theorem lyK23_eq : pairUp lyK22 = lyK23 := by decide

theorem lyK24_eq : pairUp lyK23 = lyK24 := by decide

theorem lyK25_eq : pairUp lyK24 = lyK25 := by decide

theorem lyK26_eq : pairUp lyK25 = lyK26 := by decide

theorem lyK27_eq : pairUp lyK26 = lyK27 := by decide

theorem layersK2_eq : buildLayers trK2 = [trK2, lyK21, lyK22, lyK23, lyK24, lyK25, lyK26, lyK27] := by
  unfold buildLayers
  rw [show (trK2).length = 65 from rfl]
  rw [show buildLayersAux 65 trK2 = trK2 :: buildLayersAux 64 (pairUp trK2) from rfl,
    lyK21_eq]
  rw [show buildLayersAux 64 lyK21 = lyK21 :: buildLayersAux 63 (pairUp lyK21) from rfl,
    lyK22_eq]
  rw [show buildLayersAux 63 lyK22 = lyK22 :: buildLayersAux 62 (pairUp lyK22) from rfl,
    lyK23_eq]
  rw [show buildLayersAux 62 lyK23 = lyK23 :: buildLayersAux 61 (pairUp lyK23) from rfl,
    lyK24_eq]
  rw [show buildLayersAux 61 lyK24 = lyK24 :: buildLayersAux 60 (pairUp lyK24) from rfl,
    lyK25_eq]
  rw [show buildLayersAux 60 lyK25 = lyK25 :: buildLayersAux 59 (pairUp lyK25) from rfl,
    lyK26_eq]
  rw [show buildLayersAux 59 lyK26 = lyK26 :: buildLayersAux 58 (pairUp lyK26) from rfl,
    lyK27_eq]
  rw [show buildLayersAux 58 lyK27 = [lyK27] from rfl]

theorem rootK2_eq : merkleRoot trK2 = 1213709525 := by
  unfold merkleRoot
  rw [layersK2_eq]
  rfl

theorem fsK2_eq : generateFiatShamirQueries 1213709525 5 MIMC_ROUNDS 8 = some [2, 24, 39, 46, 54] := by
  decide

theorem genK2_eq : ZKProver.generateKnowledgeProof [98] [99] 8 = some pfK2 := by
  unfold ZKProver.generateKnowledgeProof
  simp only [show ZKProver.stringToField [98] = 98 from by decide,
    show ZKProver.stringToField [99] = 99 from by decide,
    trK2_eq, layersK2_eq, rootK2_eq, fsK2_eq]
  decide

theorem trN1_eq : buildTrace 97 0 = trN1 := by decide

theorem lyN11_eq : pairUp trN1 = lyN11 := by decide

theorem lyN12_eq : pairUp lyN11 = lyN12 := by decide

theorem lyN13_eq : pairUp lyN12 = lyN13 := by decide

theorem lyN14_eq : pairUp lyN13 = lyN14 := by decide

theorem lyN15_eq : pairUp lyN14 = lyN15 := by decide

theorem lyN16_eq : pairUp lyN15 = lyN16 := by decide

theorem lyN17_eq : pairUp lyN16 = lyN17 := by decide

theorem layersN1_eq : buildLayers trN1 = [trN1, lyN11, lyN12, lyN13, lyN14, lyN15, lyN16, lyN17] := by
  unfold buildLayers
  rw [show (trN1).length = 65 from rfl]
  rw [show buildLayersAux 65 trN1 = trN1 :: buildLayersAux 64 (pairUp trN1) from rfl,
    lyN11_eq]
  rw [show buildLayersAux 64 lyN11 = lyN11 :: buildLayersAux 63 (pairUp lyN11) from rfl,
    lyN12_eq]
  rw [show buildLayersAux 63 lyN12 = lyN12 :: buildLayersAux 62 (pairUp lyN12) from rfl,
    lyN13_eq]
  rw [show buildLayersAux 62 lyN13 = lyN13 :: buildLayersAux 61 (pairUp lyN13) from rfl,
    lyN14_eq]
  rw [show buildLayersAux 61 lyN14 = lyN14 :: buildLayersAux 60 (pairUp lyN14) from rfl,
    lyN15_eq]
  rw [show buildLayersAux 60 lyN15 = lyN15 :: buildLayersAux 59 (pairUp lyN15) from rfl,
    lyN16_eq]
  rw [show buildLayersAux 59 lyN16 = lyN16 :: buildLayersAux 58 (pairUp lyN16) from rfl,
    lyN17_eq]
  rw [show buildLayersAux 58 lyN17 = [lyN17] from rfl]

theorem rootN1_eq : merkleRoot trN1 = 1603058277 := by
  unfold merkleRoot
  rw [layersN1_eq]
  rfl

theorem fsN1_eq : generateFiatShamirQueries 1603058277 5 MIMC_ROUNDS 8 = some [1, 27, 28, 46, 60] := by
  decide

theorem genN1_eq : ZKProver.generateProofNative [97] 8 = some pfN1 := by
  unfold ZKProver.generateProofNative
  simp only [show ZKProver.stringToField [97] = 97 from by decide,
    trN1_eq, layersN1_eq, rootN1_eq, fsN1_eq]
  decide

/-! ### Claim theorems -/

/-- Claim C1, counterexample: the verifier accepts a knowledge proof whose
single index-0 query carries a `next_path` (the empty path) that does NOT
authenticate `next_value` at index 1 — `next_path` is never checked, so
"if the path authentication of next_value fails, verification rejects" is
false. -/
theorem claim1_cex :
    (ZKVerifier.verify (ProofObj.mk "zk-stark-knowledge-proof" [] 0 5 "" [] 0
      [TraceQuery.mk 0 5 [] (some 125) (some [])])).success = true ∧
    merkleVerify 5 1 125 [] = false := by
  constructor
  · decide
  · decide

/-- Claim C1, amended: for every query with index < R the verifier
recomputes the transition and compares it with `next_value` (and a
succeeding run forces that equality for every non-boundary query in either
proof mode), but `next_path` is ignored entirely: replacing every query's
`next_path` never changes the verification result. -/
theorem claim1_next_path_ignored :
    (∀ (pf : ProofObj) (g : TraceQuery → Option (List (Option Nat))),
       ZKVerifier.verify { pf with
         trace_queries := pf.trace_queries.map (fun q => { q with next_path := g q }) } =
         ZKVerifier.verify pf) ∧
    (∀ root claimed key qs, (ZKVerifier.kQueryLoop root claimed key qs).success = true →
       ∀ q ∈ qs, q.index ≠ MIMC_ROUNDS →
         q.next_value = some (mimcStep key q.value (MIMC_CONSTANTS.getD q.index 0))) ∧
    (∀ root claimed key qs, (ZKVerifier.iQueryLoop root claimed key qs).success = true →
       ∀ q ∈ qs, q.index ≠ MIMC_ROUNDS →
         q.next_value = some (mimcStep key q.value (MIMC_CONSTANTS.getD q.index 0))) :=
  ⟨ZKVerifier.verify_next_path_irrelevant, ZKVerifier.kQueryLoop_success_transition,
    ZKVerifier.iQueryLoop_success_transition⟩

/-- Witness for `claim1_next_path_ignored`: both loop conclusions
instantiated on concrete accepting one-query lists. -/
theorem claim1_witness :
    TraceQuery.next_value (TraceQuery.mk 3 2 [] (some (mimcStep 0 2 (MIMC_CONSTANTS.getD 3 0))) none) =
      some (mimcStep 0 2 (MIMC_CONSTANTS.getD 3 0)) ∧
    TraceQuery.next_value (TraceQuery.mk 5 4 [] (some (mimcStep 0 4 (MIMC_CONSTANTS.getD 5 0))) none) =
      some (mimcStep 0 4 (MIMC_CONSTANTS.getD 5 0)) :=
  ⟨claim1_next_path_ignored.2.1 2 0 0
      [TraceQuery.mk 3 2 [] (some (mimcStep 0 2 (MIMC_CONSTANTS.getD 3 0))) none]
      (by decide)
      (TraceQuery.mk 3 2 [] (some (mimcStep 0 2 (MIMC_CONSTANTS.getD 3 0))) none)
      (by decide) (by decide),
   claim1_next_path_ignored.2.2 4 0 0
      [TraceQuery.mk 5 4 [] (some (mimcStep 0 4 (MIMC_CONSTANTS.getD 5 0))) none]
      (by decide)
      (TraceQuery.mk 5 4 [] (some (mimcStep 0 4 (MIMC_CONSTANTS.getD 5 0))) none)
      (by decide) (by decide)⟩

/-- Claim C2 (code bug, evaluated at the failing input): with secret "b"
(code 98) and nonce "n" (code 110), the Fiat-Shamir sampler returns index 0
among its five indices, the prover includes the index-0 query — revealing
the witness leaf trace[0] = stringToField(secret) — and the verifier
accepts the proof rather than rejecting it.  This contradicts both the spec
and the prover's own comment that index 0 is never revealed. -/
theorem claim2_index_zero_leak :
    (ZKProver.generateKnowledgeProof [98] [110] 8).isSome = true ∧
    ((ZKProver.generateKnowledgeProof [98] [110] 8).getD emptyProofObj).trace_queries.any
      (fun q => q.index == 0) = true ∧
    (ZKVerifier.verify ((ZKProver.generateKnowledgeProof [98] [110] 8).getD
      emptyProofObj)).success = true := by
  have h : ZKProver.generateKnowledgeProof [98] [110] 8 =
      some ((ZKProver.generateKnowledgeProof [98] [110] 8).getD emptyProofObj) := by
    rw [genK1_eq]
    rfl
  refine ⟨?_, ?_, generateKnowledgeProof_verifies [98] [110] 8 _ h⟩
  · rw [genK1_eq]
    rfl
  · rw [genK1_eq]
    decide

/-- Claim C3: whenever the prover produces a proof (native-mimc mode on any
password, or knowledge mode on any secret/nonce pair), the verifier accepts
it. -/
theorem claim3_completeness :
    (∀ password fuel pf, ZKProver.generateProofNative password fuel = some pf →
       (ZKVerifier.verify pf).success = true) ∧
    (∀ secret nonce fuel pf, ZKProver.generateKnowledgeProof secret nonce fuel = some pf →
       (ZKVerifier.verify pf).success = true) :=
  ⟨fun pw fuel pf h => generateProofNative_verifies pw fuel pf h,
   fun s n fuel pf h => generateKnowledgeProof_verifies s n fuel pf h⟩

/-- Witness for `claim3_completeness`: password "a", and secret "b" with
nonce "c". -/
theorem claim3_witness :
    (ZKVerifier.verify ((ZKProver.generateProofNative [97] 8).getD emptyProofObj)).success = true ∧
    (ZKVerifier.verify ((ZKProver.generateKnowledgeProof [98] [99] 8).getD
      emptyProofObj)).success = true :=
  ⟨claim3_completeness.1 [97] 8 ((ZKProver.generateProofNative [97] 8).getD emptyProofObj)
      (by rw [genN1_eq]; rfl),
   claim3_completeness.2 [98] [99] 8 ((ZKProver.generateKnowledgeProof [98] [99] 8).getD
      emptyProofObj) (by rw [genK2_eq]; rfl)⟩

/-- Claim C4, counterexample: a knowledge proof with an empty
`trace_queries` list — hence no boundary query at all — is accepted, so the
verifier does not enforce the boundary-query structural invariant. -/
theorem claim4_cex :
    (ZKVerifier.verify (ProofObj.mk "zk-stark-knowledge-proof" [] 0 0 "" [] 0 [])).success
      = true := by
  decide

/-- Claim C4, amended: there is no structural boundary-uniqueness check —
any knowledge proof with an empty query list is accepted — while each
index-R query that does appear is individually required to equal the
declared output (in both proof modes). -/
theorem claim4_boundary_checks :
    (∀ nonce po root alg oh mo,
       (ZKVerifier.verify (ProofObj.mk "zk-stark-knowledge-proof" nonce po root alg oh mo
         [])).success = true) ∧
    (∀ root claimed key qs, (ZKVerifier.kQueryLoop root claimed key qs).success = true →
       ∀ q ∈ qs, q.index = MIMC_ROUNDS → q.value = claimed) ∧
    (∀ root claimed key qs, (ZKVerifier.iQueryLoop root claimed key qs).success = true →
       ∀ q ∈ qs, q.index = MIMC_ROUNDS → q.value = claimed) := by
  refine ⟨?_, ZKVerifier.kQueryLoop_success_boundary, ZKVerifier.iQueryLoop_success_boundary⟩
  intro nonce po root alg oh mo
  unfold ZKVerifier.verify
  dsimp only []
  rw [if_pos rfl]
  rfl

/-- Witness for `claim4_boundary_checks`. -/
theorem claim4_witness :
    (ZKVerifier.verify (ProofObj.mk "zk-stark-knowledge-proof" [110] 7 9 "" [] 0 [])).success
      = true ∧
    TraceQuery.value (TraceQuery.mk MIMC_ROUNDS 5 [] none none) = 5 :=
  ⟨claim4_boundary_checks.1 [110] 7 9 "" [] 0,
   claim4_boundary_checks.2.1 5 5 0 [TraceQuery.mk MIMC_ROUNDS 5 [] none none]
     (by decide) (TraceQuery.mk MIMC_ROUNDS 5 [] none none) (by decide) (by decide)⟩

/-- Claim C5: for x < p the prover's trace loop produces exactly the
sequence (t_0, ..., t_64) of the claimed recurrence (no closing key
addition), and `mimcHash x k` equals `(t_64 + k) mod p`. -/
theorem claim5_trace_and_hash (x k : Nat) (hx : x < FIELD_MODULUS) :
    (buildTrace x k).length = 65 ∧
    (∀ i, i ≤ 64 → (buildTrace x k).getD i 0 = specTransition x k i) ∧
    mimcHash x k = (specTransition x k 64 + k) % FIELD_MODULUS := by
  refine ⟨buildTrace_length x k, buildTrace_eq_specTransition x k hx, ?_⟩
  rw [mimcHash_eq_trace, buildTrace_eq_specTransition x k hx 64 (le_refl _)]

/-- Witness for `claim5_trace_and_hash` at x = 3, k = 7. -/
theorem claim5_witness :
    (3 : Nat) < FIELD_MODULUS ∧
    (buildTrace 3 7).getD 64 0 = specTransition 3 7 64 ∧
    mimcHash 3 7 = (specTransition 3 7 64 + 7) % FIELD_MODULUS :=
  ⟨by decide, (claim5_trace_and_hash 3 7 (by decide)).2.1 64 (by decide),
   (claim5_trace_and_hash 3 7 (by decide)).2.2⟩

/-- Claim C6: the Merkle combiner computes
`mimc_hash((a + 2*b) mod p, key = 0)` with the empty-sibling token read as
0, its output is a canonical field value (so its decimal rendering is the
same canonical encoding used for leaves and all nodes), and the build pass
applies exactly this combiner to full and padded pairs. -/
theorem claim6_combiner :
    (∀ a b : Option Nat,
       hashPair a b = mimcHash ((a.getD 0 + 2 * b.getD 0) % FIELD_MODULUS) 0 ∧
       hashPair a b < FIELD_MODULUS) ∧
    (∀ x y : Nat, pairUp [x, y] = [hashPair (some x) (some y)] ∧
       pairUp [x] = [hashPair (some x) none]) := by
  constructor
  · intro a b; exact ⟨rfl, hashPair_lt a b⟩
  · intro x y; exact ⟨rfl, rfl⟩

/-- Claim C7, counterexample: a concrete pair of distinct canonical field
values with `h(a, b) = h(b, a)`.  The pair is built from the cube root of
unity `w = 5^(2^30) mod p`: since `c_0 = 0`, the first MiMC round cubes its
input, and `3` divides `p - 1`, so `mimcHash(., 0)` identifies `1` and `w`;
solving `a + 2b = 1`, `b + 2a = w` (mod p) gives the collision. -/
theorem claim7_cex :
    (2147450880 : Nat) < FIELD_MODULUS ∧ (536887297 : Nat) < FIELD_MODULUS ∧
    (2147450880 : Nat) ≠ 536887297 ∧
    hashPair (some 2147450880) (some 536887297) =
      hashPair (some 536887297) (some 2147450880) := by
  refine ⟨by decide, by decide, by decide, by decide⟩

/-- Claim C7, amended: for distinct canonical a, b the combiner's two mixed
inputs `(a + 2b) mod p` and `(b + 2a) mod p` are always distinct — this is
all that the factor 2 guarantees — but the combiner itself composes with
the non-injective `mimcHash(., 0)` so full non-commutativity fails
(see `claim7_cex`). -/
theorem claim7_mixed_inputs_distinct (a b : Nat) (ha : a < FIELD_MODULUS)
    (hb : b < FIELD_MODULUS) (hne : a ≠ b) :
    (a + 2 * b) % FIELD_MODULUS ≠ (b + 2 * a) % FIELD_MODULUS := by
  intro h
  have hm : (a + 2 * b) ≡ (b + 2 * a) [MOD FIELD_MODULUS] := h
  have hdvd := hm.dvd
  unfold FIELD_MODULUS at hdvd
  have ha' := ha
  have hb' := hb
  unfold FIELD_MODULUS at ha' hb'
  omega

/-- Witness for `claim7_mixed_inputs_distinct` at (1, 2). -/
theorem claim7_witness :
    (1 : Nat) < FIELD_MODULUS ∧ (2 : Nat) < FIELD_MODULUS ∧ (1 : Nat) ≠ 2 ∧
    (1 + 2 * 2) % FIELD_MODULUS ≠ (2 + 2 * 1) % FIELD_MODULUS :=
  ⟨by decide, by decide, by decide,
   claim7_mixed_inputs_distinct 1 2 (by decide) (by decide) (by decide)⟩

/-- Claim C8, counterexample: the sampler has no iteration cap — on the
starving input (numQueries = 2, domainSize = 1) it is still running after
1000 iterations (and, by `claim8_sampler`, after any number of
iterations); no TranscriptStuck failure exists in the code. -/
theorem claim8_cex : generateFiatShamirQueries 0 2 1 1000 = none :=
  generateFiatShamirQueries_starved 0 1000

/-- Claim C8, amended: the loop is uncapped — on a starving input it never
returns for any iteration bound — and whenever it does return it returns
exactly n distinct indices inside the domain. -/
theorem claim8_sampler :
    (∀ fuel, generateFiatShamirQueries 0 2 1 fuel = none) ∧
    (∀ root n d fuel out, generateFiatShamirQueries root n d fuel = some out →
       out.length = n ∧ out.Nodup ∧ ∀ x ∈ out, x < d) :=
  ⟨generateFiatShamirQueries_starved 0,
   fun root n d fuel out h => generateFiatShamirQueries_sound root n d fuel out h⟩

/-- Witness for `claim8_sampler`: seed 1, two queries over domain 8. -/
theorem claim8_witness :
    generateFiatShamirQueries 1 2 8 16 = some [1, 3] ∧
    ([1, 3] : List Nat).length = 2 ∧ ([1, 3] : List Nat).Nodup ∧
    ∀ x ∈ ([1, 3] : List Nat), x < 8 := by
  have h : generateFiatShamirQueries 1 2 8 16 = some [1, 3] := by decide
  exact ⟨h, claim8_sampler.2 1 2 8 16 [1, 3] h⟩

/-- Claim C9, counterexample: `inv(0)` does not fail — the Fermat
exponentiation `0^(p-2) mod p` silently returns the zero field element. -/
theorem claim9_cex : FieldElement.inv 0 = 0 := by decide

/-- Claim C9, amended: `inv` is total; at 0 it returns the canonical zero
value (via `pow 0 (p-2) = 0`), a field value below p, and no
InvalidField error path exists in the code. -/
theorem claim9_inv_zero_total :
    FieldElement.inv 0 = 0 ∧ FieldElement.pow 0 (FIELD_MODULUS - 2) = 0 ∧
    FieldElement.inv 0 < FIELD_MODULUS := by
  refine ⟨by decide, by decide, by decide⟩

/-- Claim C10: the prover's and the verifier's independent `stringToField`
implementations agree on every string, and both equal the base-256
big-endian value of the character codes reduced modulo p. -/
theorem claim10_stringToField (s : List Nat) :
    ZKProver.stringToField s = ZKVerifier.stringToField s ∧
    ZKVerifier.stringToField s = (s.foldl (fun v c => v * 256 + c) 0) % FIELD_MODULUS := by
  refine ⟨stringToField_agree s, ?_⟩
  unfold ZKVerifier.stringToField
  generalize (s.foldl (fun v c => v * 256 + c) 0) = n
  unfold FIELD_MODULUS
  omega
